import Mathlib

/-!
Shallow embedding of the evidence-locker service (TypeScript) in Lean 4,
covering the components that the verified claims are about:

* `src/core/mime.ts` — filename sanitizer, bucket-key derivation, MIME allow-list;
* `src/core/hasher.ts` — digest-string normalization and validation;
* `src/core/auth.ts` — HMAC signature verification and request authentication;
* `src/api/upload.ts` — the two-phase upload `complete` handler (and the
  bucket-key selection of the `init` handler);
* `src/api/admin.ts` — the admin `rescan` handler.

JavaScript strings are modelled as `List Char` (wrapped in `String` at the
API boundary); byte streams as `List Nat`; `Date` values as `Nat`
timestamps; the SHA-256 and HMAC primitives as opaque function parameters;
the Prisma catalog as an in-memory record of session and artifact lists.
Fallible handlers return an outcome sum type carrying the error code and
HTTP status that the handler's catch-block would send.
-/

namespace EvidenceLocker

/-! ## Filename sanitizer and bucket key (src/core/mime.ts) -/

/-- Characters replaced by the sanitizer's first step, the character class
`[<>:"/\|?*]` of `sanitizeFilename`. -/
def isDangerousChar (c : Char) : Bool :=
  c == '<' || c == '>' || c == ':' || c == '"' || c == '/' ||
  c == '\\' || c == '|' || c == '?' || c == '*'

/-- Step 1 of `sanitizeFilename`: `.replace(/[<>:"/\\|?*]/g, '_')`. -/
def replaceDangerous (cs : List Char) : List Char :=
  cs.map (fun c => if isDangerousChar c then '_' else c)

/-- Step 2 of `sanitizeFilename`: `.replace(/\.\./g, '_')` — the JS global
replace scans left to right, replacing each non-overlapping `..` pair. -/
def replaceDotDot : List Char → List Char
  | [] => []
  | [c] => [c]
  | c :: c₂ :: rest =>
    if c == '.' && c₂ == '.' then '_' :: replaceDotDot rest
    else c :: replaceDotDot (c₂ :: rest)

/-- Whether a character list contains two adjacent dots (the substring `..`). -/
def hasDotDot : List Char → Bool
  | [] => false
  | [_] => false
  | c :: c₂ :: rest => (c == '.' && c₂ == '.') || hasDotDot (c₂ :: rest)

/-- The whitespace class removed by JavaScript `String.prototype.trim`
(ASCII whitespace, NBSP, Unicode space separators, line/paragraph
separators, BOM). -/
def isJsWhitespace (c : Char) : Bool :=
  (9 ≤ c.toNat && c.toNat ≤ 13) || c.toNat == 32 || c.toNat == 160 ||
  c.toNat == 0x1680 || (0x2000 ≤ c.toNat && c.toNat ≤ 0x200A) ||
  c.toNat == 0x2028 || c.toNat == 0x2029 || c.toNat == 0x202F ||
  c.toNat == 0x205F || c.toNat == 0x3000 || c.toNat == 0xFEFF

/-- Drop the longest suffix of characters satisfying `p`.  Equivalent to
`reverse ∘ dropWhile p ∘ reverse`; models the trailing half of JS `trim`. -/
def dropTrailingWhile (p : Char → Bool) : List Char → List Char
  | [] => []
  | c :: rest =>
    match dropTrailingWhile p rest with
    | [] => if p c then [] else [c]
    | r :: rs => c :: r :: rs

/-- JS `String.prototype.trim`: remove leading and trailing whitespace. -/
def trimChars (cs : List Char) : List Char :=
  dropTrailingWhile isJsWhitespace (cs.dropWhile isJsWhitespace)

/-- Model of `sanitizeFilename` of src/core/mime.ts over character lists: replace the
dangerous characters with `_`, replace `..` pairs with `_`, strip leading
dots (`.replace(/^\.+/, '')`), then `.trim()`. -/
def sanitizeFilenameL (cs : List Char) : List Char :=
  trimChars ((replaceDotDot (replaceDangerous cs)).dropWhile (fun c => c == '.'))

/-- Model of `sanitizeFilename` of src/core/mime.ts. -/
def sanitizeFilename (s : String) : String :=
  ⟨sanitizeFilenameL s.data⟩

/-- JS `slice(a, b)` on a character list (for `a ≤ b` on in-range indices). -/
def sliceL (cs : List Char) (a b : Nat) : List Char :=
  (cs.drop a).take (b - a)

/-- Model of `generateBucketKey` of src/core/mime.ts over character lists:
`sha256/<d[0:2]>/<d[2:4]>/<d>/<sanitized-filename>`. -/
def bucketKeyL (sha : List Char) (filename : List Char) : List Char :=
  "sha256".data ++ '/' :: (sliceL sha 0 2 ++ '/' :: (sliceL sha 2 4 ++ '/' ::
    (sha ++ '/' :: sanitizeFilenameL filename)))

/-- Model of `generateBucketKey` of src/core/mime.ts. -/
def generateBucketKey (sha256 : String) (filename : String) : String :=
  ⟨bucketKeyL sha256.data filename.data⟩

/-! ## MIME allow-list (src/core/mime.ts) -/

/-- The `DEFAULT_ALLOWED_MIME_TYPES` array of src/core/mime.ts, in source order. -/
def DEFAULT_ALLOWED_MIME_TYPES : List String :=
  ["application/pdf", "image/png", "image/jpeg", "image/jpg", "text/csv",
   "application/json", "application/zip", "application/x-zip-compressed",
   "text/plain", "application/octet-stream"]

/-- JS `String.prototype.toLowerCase` restricted to the ASCII range, which is
all that matters against the all-ASCII allow-list. -/
def jsToLowerCase (s : String) : String :=
  ⟨s.data.map Char.toLower⟩

/-- Model of `isAllowedMimeType` of src/core/mime.ts:
`allowedTypes.includes(mimeType.toLowerCase())`. -/
def isAllowedMimeType (mimeType : String) : Bool :=
  DEFAULT_ALLOWED_MIME_TYPES.contains (jsToLowerCase mimeType)

/-- Model of `validateMimeType` of src/core/mime.ts: throws `UnsupportedMimeTypeError`
(code `UNSUPPORTED_MIME_TYPE`, HTTP 415) when the type is not allowed. -/
def validateMimeType (mimeType : String) : Except String Unit :=
  if isAllowedMimeType mimeType then .ok () else .error "UNSUPPORTED_MIME_TYPE"

/-! ## Digest-string helpers (src/core/hasher.ts) -/

/-- Model of `normalizeSha256Hash` of src/core/hasher.ts:
`hash.replace(/^0x/i, '').toLowerCase()`. -/
def normalizeSha256Hash (hash : String) : String :=
  let stripped : List Char :=
    match hash.data with
    | '0' :: c :: rest => if c == 'x' || c == 'X' then rest else hash.data
    | _ => hash.data
  ⟨stripped.map Char.toLower⟩

/-- Model of `validateSha256Hash` of src/core/hasher.ts: `/^[a-f0-9]{64}$/.test(hash)`. -/
def validateSha256Hash (hash : String) : Bool :=
  hash.data.length == 64 &&
  hash.data.all (fun c => ('a' ≤ c && c ≤ 'f') || ('0' ≤ c && c ≤ '9'))

/-! ## Data model (Prisma catalog: UploadSession, Artifact) -/

/-- The `UploadSessionStatus` enum of the Prisma schema. -/
inductive SessionStatus
  | PENDING
  | COMPLETE
  | ABORTED
  | EXPIRED
deriving DecidableEq

/-- The `ScanStatus` enum of the Prisma schema. -/
inductive ScanStatus
  | PENDING
  | CLEAN
  | INFECTED
deriving DecidableEq

/-- An `UploadSession` row.  `sha256Hex` is the caller's declared digest
(nullable); timestamps are `Nat` instants. -/
structure UploadSession where
  id : String
  sha256Hex : Option String
  filename : String
  mimeHint : Option String
  bucketKey : Option String
  status : SessionStatus
  expiresAt : Nat
  completedAt : Option Nat
deriving DecidableEq

/-- An `Artifact` row (the fields the verified handlers read or write). -/
structure Artifact where
  id : String
  sha256Hex : String
  sizeBytes : Nat
  mime : String
  filename : String
  bucketKey : String
  cidV1 : Option String
  scanStatus : ScanStatus
  verifiedAt : Option Nat
  createdAt : Nat
deriving DecidableEq

/-- The catalog database: the two tables the handlers touch. -/
structure Catalog where
  sessions : List UploadSession
  artifacts : List Artifact
deriving DecidableEq

/-- Model of the lookup the handlers do by session id. -/
def findSession (cat : Catalog) (uploadId : String) : Option UploadSession :=
  cat.sessions.find? (fun s => s.id == uploadId)

/-- Model of the artifact lookup by digest (the unique business key). -/
def findArtifactByDigest (cat : Catalog) (digest : String) : Option Artifact :=
  cat.artifacts.find? (fun a => a.sha256Hex == digest)

/-- Model of the session update that sets status to ABORTED on hash mismatch;
only the status field is written. -/
def setSessionAborted (cat : Catalog) (uploadId : String) : Catalog :=
  { cat with sessions := cat.sessions.map (fun s =>
      if s.id == uploadId then { s with status := .ABORTED } else s) }

/-- Model of the session update that sets status to COMPLETE and writes
a fresh completion timestamp. -/
def setSessionComplete (cat : Catalog) (uploadId : String) (now : Nat) : Catalog :=
  { cat with sessions := cat.sessions.map (fun s =>
      if s.id == uploadId then { s with status := .COMPLETE, completedAt := some now }
      else s) }

/-- Model of the artifact update that records an IPFS content id. -/
def setArtifactCid (cat : Catalog) (artifactId : String) (cid : Option String) : Catalog :=
  { cat with artifacts := cat.artifacts.map (fun a =>
      if a.id == artifactId then { a with cidV1 := cid } else a) }

/-! ## The upload `complete` handler (src/api/upload.ts) -/

/-- The JSON body the complete handler replies with on success. -/
structure CompleteResponse where
  artifactId : String
  sha256Hex : String
  sizeBytes : Nat
  mime : String
  bucketKey : String
  cidV1 : Option String
  downloadUrl : String
deriving DecidableEq

/-- Outcome of one complete call: a 200 reply (recording whether the IPFS
pin was attempted), or an error reply with its code and HTTP status as the
handler's catch-block sends them. -/
inductive CompleteOutcome
  | ok (resp : CompleteResponse) (pinAttempted : Bool)
  | reject (code : String) (httpStatus : Nat)
deriving DecidableEq

/-- Semantics of JS `a || b` on a nullable string: null, undefined and the
empty string all fall back to the default. -/
def jsOrString (a : Option String) (b : String) : String :=
  match a with
  | some v => if v == "" then b else v
  | none => b

/-- The `POST /v1/upload/complete` handler of src/api/upload.ts, after
authentication.  Parameters model the handler's collaborators:
`hash` is `computeHashFromStream` (digest of the byte stream; the observed
size is the stream length); `store` is `storage.getObject` (`none` = the
driver threw); `ipfsPin` is the optional IPFS driver (`none` = disabled;
`some pin` with `pin bytes = none` = pin failure, swallowed); `freshId` is
the id Prisma mints for a created artifact; `now` is the clock.
Error outcomes carry the code/status the catch-block sends: unlisted error
classes (missing bucket key, storage failure) fall through to a generic
HTTP 500. -/
def completeUpload (hash : List Nat → String) (store : String → Option (List Nat))
    (ipfsPin : Option (List Nat → Option String)) (freshId : String) (now : Nat)
    (cat : Catalog) (uploadId : String) : Catalog × CompleteOutcome :=
  match findSession cat uploadId with
  | none => (cat, .reject "NOT_FOUND" 404)
  | some s =>
    if s.expiresAt < now then (cat, .reject "UPLOAD_SESSION_EXPIRED" 410)
    else match s.bucketKey with
    | none => (cat, .reject "INTERNAL_ERROR" 500)
    | some bk =>
      match store bk with
      | none => (cat, .reject "INTERNAL_ERROR" 500)
      | some bytes =>
        let digest := hash bytes
        let mismatch := match s.sha256Hex with
          | some d => d != digest
          | none => false
        if mismatch then
          (setSessionAborted cat uploadId, .reject "HASH_MISMATCH" 409)
        else match findArtifactByDigest cat digest with
        | some a =>
          -- Deduplication hit: no artifact created, no pin, session completed.
          (setSessionComplete cat uploadId now,
           .ok { artifactId := a.id, sha256Hex := a.sha256Hex,
                 sizeBytes := a.sizeBytes, mime := a.mime,
                 bucketKey := a.bucketKey, cidV1 := a.cidV1,
                 downloadUrl := "/v1/artifacts/" ++ a.sha256Hex } false)
        | none =>
          let art : Artifact :=
            { id := freshId, sha256Hex := digest, sizeBytes := bytes.length,
              mime := jsOrString s.mimeHint "application/octet-stream",
              filename := s.filename, bucketKey := bk, cidV1 := none,
              scanStatus := .PENDING, verifiedAt := some now, createdAt := now }
          let cat₁ : Catalog := { cat with artifacts := art :: cat.artifacts }
          match ipfsPin with
          | none =>
            (setSessionComplete cat₁ uploadId now,
             .ok { artifactId := art.id, sha256Hex := art.sha256Hex,
                   sizeBytes := art.sizeBytes, mime := art.mime,
                   bucketKey := art.bucketKey, cidV1 := none,
                   downloadUrl := "/v1/artifacts/" ++ art.sha256Hex } false)
          | some pin =>
            match pin bytes with
            | some cid =>
              (setSessionComplete (setArtifactCid cat₁ freshId (some cid)) uploadId now,
               .ok { artifactId := art.id, sha256Hex := art.sha256Hex,
                     sizeBytes := art.sizeBytes, mime := art.mime,
                     bucketKey := art.bucketKey, cidV1 := some cid,
                     downloadUrl := "/v1/artifacts/" ++ art.sha256Hex } true)
            | none =>
              (setSessionComplete cat₁ uploadId now,
               .ok { artifactId := art.id, sha256Hex := art.sha256Hex,
                     sizeBytes := art.sizeBytes, mime := art.mime,
                     bucketKey := art.bucketKey, cidV1 := none,
                     downloadUrl := "/v1/artifacts/" ++ art.sha256Hex } true)

/-- The bucket-key selection of the `POST /v1/upload/init` handler
(src/api/upload.ts lines 88–91): the declared digest if present,
otherwise a fresh random UUID, is used as the key's digest component. -/
def initBucketKey (declaredSha256 : Option String) (uuid : String)
    (filename : String) : String :=
  match declaredSha256 with
  | some d => generateBucketKey (normalizeSha256Hash d) filename
  | none => generateBucketKey uuid filename

/-! ## The admin `rescan` handler (src/api/admin.ts) -/

/-- Outcome of one rescan call. -/
inductive RescanOutcome
  | ok (sha256Hex : String) (scanStatus : ScanStatus) (verifiedAt : Nat)
  | reject (code : String) (httpStatus : Nat)
deriving DecidableEq

/-- The `POST /v1/admin/rescan` handler of src/api/admin.ts, after
authentication and the `registry` authorization gate.  `store bucketKey =
none` models `storage.getObject` throwing `StorageError` (code
`STORAGE_ERROR`, HTTP 500); a recomputed digest differing from the stored
one throws the same class. -/
def rescanArtifact (hash : List Nat → String) (store : String → Option (List Nat))
    (now : Nat) (cat : Catalog) (sha256Hex : String) : Catalog × RescanOutcome :=
  match findArtifactByDigest cat sha256Hex with
  | none => (cat, .reject "NOT_FOUND" 404)
  | some a =>
    match store a.bucketKey with
    | none => (cat, .reject "STORAGE_ERROR" 500)
    | some bytes =>
      if hash bytes != a.sha256Hex then
        (cat, .reject "STORAGE_ERROR" 500)
      else
        ({ cat with artifacts := cat.artifacts.map (fun b =>
             if b.id == a.id then { b with scanStatus := .CLEAN, verifiedAt := some now }
             else b) },
         .ok a.sha256Hex .CLEAN now)

/-! ## HMAC authentication (src/core/auth.ts) -/

/-- The authenticated caller identity returned by `authenticateRequest`. -/
structure AuthContext where
  appKey : String
deriving DecidableEq

/-- Model of `verifyHMACSignature` of src/core/auth.ts: recompute
`hex(HMAC-SHA256(secret, body))` and compare with JS `===` string equality.
`hmac` is the opaque `createHmac('sha256', secret).update(body).digest('hex')`
primitive. -/
def verifyHMACSignature (hmac : String → String → String)
    (body signature secret : String) : Bool :=
  hmac secret body == signature

/-- The number of character comparisons a short-circuiting left-to-right
string equality performs before returning: its running time.  A JS `===`
on equal-length strings stops at the first differing position. -/
def earlyExitEqSteps : List Char → List Char → Nat
  | x :: xs, y :: ys => 1 + (if x = y then earlyExitEqSteps xs ys else 0)
  | _, _ => 0

/-- Running-time model of `verifyHMACSignature`'s `===` comparison of the
expected and the presented signature. -/
def verifySignatureSteps (hmac : String → String → String)
    (body signature secret : String) : Nat :=
  earlyExitEqSteps (hmac secret body).data signature.data

/-- Model of `authenticateRequest` of src/core/auth.ts: look the app key up in the
configured key→secret map, then verify the HMAC signature; each failure
throws `AuthenticationError` with its own message. -/
def authenticateRequest (appKeys : String → Option String)
    (hmac : String → String → String) (appKey signature body : String) :
    Except String AuthContext :=
  match appKeys appKey with
  | none => .error ("Invalid app key: " ++ appKey)
  | some secret =>
    if verifyHMACSignature hmac body signature secret then
      .ok { appKey := appKey }
    else
      .error "Invalid signature"

/-! ## Auxiliary definitions used by the statements -/

/-- Split a character list at every slash, keeping empty segments: the
segments of an object-store key. -/
def splitSlash : List Char → List (List Char)
  | [] => [[]]
  | c :: rest =>
    match splitSlash rest with
    | [] => [[c]]
    | h :: t => if c == '/' then [] :: h :: t else (c :: h) :: t

instance {ε α : Type} [DecidableEq ε] [DecidableEq α] : DecidableEq (Except ε α) :=
  fun x y =>
  match x, y with
  | .ok a, .ok b =>
    if h : a = b then .isTrue (by rw [h]) else .isFalse (by simp [h])
  | .error a, .error b =>
    if h : a = b then .isTrue (by rw [h]) else .isFalse (by simp [h])
  | .ok _, .error _ => .isFalse (by simp)
  | .error _, .ok _ => .isFalse (by simp)

/-- Modelled from the spec: the nine MIME types that §4.3 of the spec (and
claim C8) enumerate as the entire allow-list.  Written from the spec's
words, to be compared with the source's `DEFAULT_ALLOWED_MIME_TYPES`. -/
def specClaimedNineMimeTypes : List String :=
  ["application/pdf", "image/png", "image/jpeg", "text/csv",
   "application/json", "application/zip", "application/x-zip-compressed",
   "text/plain", "application/octet-stream"]

/-! ## Concrete inputs for counterexamples and witnesses -/

/-- A session that already completed at time 10 (dedup path, no declared
digest); its staged object is at key k1. -/
def sessionC1 : UploadSession :=
  { id := "u1", sha256Hex := none, filename := "e.pdf",
    mimeHint := some "application/pdf", bucketKey := some "k1",
    status := .COMPLETE, expiresAt := 100, completedAt := some 10 }

/-- The artifact the first complete call of session u1 resolved to. -/
def artifactC1 : Artifact :=
  { id := "A1", sha256Hex := "d1", sizeBytes := 2, mime := "application/pdf",
    filename := "e.pdf", bucketKey := "k1", cidV1 := none,
    scanStatus := .PENDING, verifiedAt := some 10, createdAt := 10 }

/-- Catalog state after the first complete call of session u1. -/
def catC1 : Catalog := { sessions := [sessionC1], artifacts := [artifactC1] }

/-- Digest function for the C1 scenario: the stored bytes hash to d1. -/
def hashC1 : List Nat → String := fun _ => "d1"

/-- Object store for the C1 scenario. -/
def storeC1 : String → Option (List Nat) :=
  fun k => if k == "k1" then some [104, 105] else none

/-- The random UUID the init handler uses for the staging key when no
digest is declared (`crypto.randomUUID()` without dashes, for brevity). -/
def uuidC2 : String := "3f8a1c2e9b4d4f00a6e5d7c8b9a01234"

/-- The actual digest of the bytes uploaded in the C2 scenario. -/
def digestC2 : String :=
  "9f86d081884c7d659a2feaa0c55ad015a3bf4f1b2b0b822cd15d6c15b0f00a08"

/-- A session created by init without a declared digest: its bucketKey is
derived from the random UUID, not from any digest. -/
def sessionC2 : UploadSession :=
  { id := "u2", sha256Hex := none, filename := sanitizeFilename "e.txt",
    mimeHint := some "text/plain",
    bucketKey := some (initBucketKey none uuidC2 "e.txt"),
    status := .PENDING, expiresAt := 100, completedAt := none }

/-- Catalog state right after init of session u2. -/
def catC2 : Catalog := { sessions := [sessionC2], artifacts := [] }

/-- A pending session with a declared digest aa that will not match. -/
def sessionW3 : UploadSession :=
  { id := "u3", sha256Hex := some "aa", filename := "f", mimeHint := none,
    bucketKey := some "k3", status := .PENDING, expiresAt := 100,
    completedAt := none }

/-- Catalog for the C3 witness. -/
def catW3 : Catalog := { sessions := [sessionW3], artifacts := [] }

/-- A pending session whose bytes will dedup against an existing artifact. -/
def sessionW4 : UploadSession :=
  { id := "u4", sha256Hex := none, filename := "g.png",
    mimeHint := some "image/png", bucketKey := some "k4", status := .PENDING,
    expiresAt := 100, completedAt := none }

/-- The pre-existing artifact with the same digest as session u4's bytes. -/
def artifactW4 : Artifact :=
  { id := "A4", sha256Hex := "d4", sizeBytes := 3, mime := "image/png",
    filename := "older.png", bucketKey := "k0", cidV1 := some "cid4",
    scanStatus := .CLEAN, verifiedAt := some 1, createdAt := 1 }

/-- Catalog for the C4 witness. -/
def catW4 : Catalog := { sessions := [sessionW4], artifacts := [artifactW4] }

/-- A pending session whose expiry (time 10) has already passed. -/
def sessionC5 : UploadSession :=
  { id := "u5", sha256Hex := none, filename := "f", mimeHint := none,
    bucketKey := some "k5", status := .PENDING, expiresAt := 10,
    completedAt := none }

/-- Catalog for the C5 counterexample and witness. -/
def catC5 : Catalog := { sessions := [sessionC5], artifacts := [] }

/-- An artifact to be rescanned in the C9 witness. -/
def artifactW9 : Artifact :=
  { id := "A9", sha256Hex := "d9", sizeBytes := 1, mime := "text/plain",
    filename := "n.txt", bucketKey := "k9", cidV1 := none,
    scanStatus := .PENDING, verifiedAt := some 2, createdAt := 2 }

/-- Catalog for the C9 witness. -/
def catW9 : Catalog := { sessions := [], artifacts := [artifactW9] }

/-! ## Lemmas about the sanitizer's building blocks -/

theorem isDangerousChar_replaceDangerous {c : Char} {l : List Char}
    (h : c ∈ replaceDangerous l) : isDangerousChar c = false := by
  rcases List.mem_map.mp h with ⟨x, _, rfl⟩
  by_cases hx : isDangerousChar x = true
  · simp [hx]; decide
  · simp at hx; simp [hx]

theorem replaceDangerous_eq_self {l : List Char}
    (h : ∀ c ∈ l, isDangerousChar c = false) : replaceDangerous l = l := by
  induction l with
  | nil => rfl
  | cons a t ih =>
    have ha := h a (List.mem_cons_self a t)
    simp only [replaceDangerous, List.map_cons, ha, if_false]
    exact congrArg _ (ih fun c hc => h c (List.mem_cons_of_mem a hc))

theorem mem_replaceDotDot {c : Char} {l : List Char}
    (h : c ∈ replaceDotDot l) : c = '_' ∨ c ∈ l := by
  induction l using replaceDotDot.induct with
  | case1 => simp [replaceDotDot] at h
  | case2 c' => simp [replaceDotDot] at h; simp [h]
  | case3 c' c₂ rest hif ih =>
    rw [replaceDotDot, if_pos hif] at h
    rcases List.mem_cons.mp h with h | h
    · left; exact h
    · rcases ih h with h | h
      · left; exact h
      · right; simp [h]
  | case4 c' c₂ rest hif ih =>
    rw [replaceDotDot, if_neg hif] at h
    rcases List.mem_cons.mp h with h | h
    · right; simp [h]
    · rcases ih h with h | h
      · left; exact h
      · right; simp [List.mem_cons.mp h]

theorem head?_replaceDotDot (l : List Char) :
    (replaceDotDot l).head? = l.head? ∨ (replaceDotDot l).head? = some '_' := by
  match l with
  | [] => left; rfl
  | [c] => left; rfl
  | c :: c₂ :: rest =>
    by_cases h : (c == '.' && c₂ == '.') = true
    · right; simp [replaceDotDot, h]
    · left; simp [replaceDotDot, h]

theorem hasDotDot_replaceDotDot (l : List Char) :
    hasDotDot (replaceDotDot l) = false := by
  induction l using replaceDotDot.induct with
  | case1 => rfl
  | case2 c => rfl
  | case3 c c₂ rest hif ih =>
    rw [replaceDotDot, if_pos hif]
    rcases hr : replaceDotDot rest with _ | ⟨x, xs⟩
    · rfl
    · rw [hr] at ih
      simp only [hasDotDot, ih, Bool.or_false]
      simp
  | case4 c c₂ rest hif ih =>
    rw [replaceDotDot, if_neg hif]
    rcases hr : replaceDotDot (c₂ :: rest) with _ | ⟨x, xs⟩
    · rfl
    · rw [hr] at ih
      simp only [hasDotDot, ih, Bool.or_false]
      rcases head?_replaceDotDot (c₂ :: rest) with h₂ | h₂ <;> rw [hr] at h₂ <;>
        simp only [List.head?_cons, Option.some.injEq] at h₂ <;> subst h₂
      · simpa using hif
      · simp

theorem replaceDotDot_eq_self {l : List Char} (h : hasDotDot l = false) :
    replaceDotDot l = l := by
  induction l using replaceDotDot.induct with
  | case1 => rfl
  | case2 c => rfl
  | case3 c c₂ rest hif ih =>
    rw [hasDotDot, hif] at h
    simp at h
  | case4 c c₂ rest hif ih =>
    rw [hasDotDot] at h
    simp only [Bool.or_eq_false_iff] at h
    rw [replaceDotDot, if_neg hif, ih h.2]

theorem head?_dropWhile_false {p : Char → Bool} {l : List Char} {c : Char}
    (h : (l.dropWhile p).head? = some c) : p c = false := by
  induction l with
  | nil => simp [List.dropWhile] at h
  | cons a t ih =>
    by_cases ha : p a = true
    · rw [List.dropWhile_cons, if_pos ha] at h
      exact ih h
    · rw [List.dropWhile_cons, if_neg ha] at h
      simp at ha
      simp at h
      exact h ▸ ha

theorem dropWhile_eq_self_of_head? {p : Char → Bool} {l : List Char}
    (h : ∀ c, l.head? = some c → p c = false) : l.dropWhile p = l := by
  cases l with
  | nil => rfl
  | cons a t =>
    rw [List.dropWhile_cons, if_neg]
    simp [h a rfl]

theorem head?_dropTrailingWhile {p : Char → Bool} {l : List Char}
    (h : dropTrailingWhile p l ≠ []) :
    (dropTrailingWhile p l).head? = l.head? := by
  cases l with
  | nil => simp [dropTrailingWhile] at h
  | cons a t =>
    rw [dropTrailingWhile]
    rcases hr : dropTrailingWhile p t with _ | ⟨r, rs⟩
    · by_cases hp : p a = true
      · rw [dropTrailingWhile, hr] at h; simp [hp] at h
      · simp [hp]
    · rfl

theorem mem_dropTrailingWhile {p : Char → Bool} {c : Char} {l : List Char}
    (h : c ∈ dropTrailingWhile p l) : c ∈ l := by
  induction l with
  | nil => simp [dropTrailingWhile] at h
  | cons a t ih =>
    rw [dropTrailingWhile] at h
    rcases hr : dropTrailingWhile p t with _ | ⟨r, rs⟩ <;> rw [hr] at h
    · by_cases hp : p a = true
      · simp [hp] at h
      · simp [hp] at h; simp [h]
    · rcases List.mem_cons.mp h with h | h
      · simp [h]
      · exact List.mem_cons_of_mem a (ih (hr ▸ h))

theorem dropTrailingWhile_idem (p : Char → Bool) (l : List Char) :
    dropTrailingWhile p (dropTrailingWhile p l) = dropTrailingWhile p l := by
  induction l with
  | nil => rfl
  | cons a t ih =>
    rw [dropTrailingWhile]
    rcases hr : dropTrailingWhile p t with _ | ⟨r, rs⟩
    · by_cases hp : p a = true
      · simp [hp, dropTrailingWhile]
      · simp [hp, dropTrailingWhile]
    · rw [dropTrailingWhile]
      rw [hr] at ih
      rw [ih]

theorem hasDotDot_cons_false {c : Char} {l : List Char}
    (h : hasDotDot (c :: l) = false) : hasDotDot l = false := by
  cases l with
  | nil => rfl
  | cons b t =>
    rw [hasDotDot] at h
    exact (Bool.or_eq_false_iff.mp h).2

theorem hasDotDot_dropWhile {p : Char → Bool} {l : List Char}
    (h : hasDotDot l = false) : hasDotDot (l.dropWhile p) = false := by
  induction l with
  | nil => exact h
  | cons a t ih =>
    by_cases hp : p a = true
    · rw [List.dropWhile_cons, if_pos hp]
      exact ih (hasDotDot_cons_false h)
    · rw [List.dropWhile_cons, if_neg hp]
      exact h

theorem hasDotDot_dropTrailingWhile {p : Char → Bool} {l : List Char}
    (h : hasDotDot l = false) : hasDotDot (dropTrailingWhile p l) = false := by
  induction l with
  | nil => rfl
  | cons a t ih =>
    rw [dropTrailingWhile]
    rcases hr : dropTrailingWhile p t with _ | ⟨r, rs⟩
    · by_cases hp : p a = true
      · simp [hp, hasDotDot]
      · simp [hp, hasDotDot]
    · have ht : hasDotDot t = false := hasDotDot_cons_false h
      have hht := ih ht
      rw [hr] at hht
      rw [hasDotDot]
      simp only [Bool.or_eq_false_iff]
      refine ⟨?_, hht⟩
      have hhead : (dropTrailingWhile p t).head? = t.head? :=
        head?_dropTrailingWhile (by rw [hr]; simp)
      rw [hr] at hhead
      cases t with
      | nil => simp at hhead
      | cons b u =>
        simp only [List.head?_cons, Option.some.injEq] at hhead
        subst hhead
        rw [hasDotDot] at h
        exact (Bool.or_eq_false_iff.mp h).1

theorem trimChars_idem (l : List Char) : trimChars (trimChars l) = trimChars l := by
  unfold trimChars
  rcases hy : dropTrailingWhile isJsWhitespace (l.dropWhile isJsWhitespace)
      with _ | ⟨r, rs⟩
  · rfl
  · have hdw : (r :: rs).dropWhile isJsWhitespace = r :: rs := by
      apply dropWhile_eq_self_of_head?
      intro c hc
      simp only [List.head?_cons, Option.some.injEq] at hc
      subst hc
      have hhead : (dropTrailingWhile isJsWhitespace
            (l.dropWhile isJsWhitespace)).head?
          = (l.dropWhile isJsWhitespace).head? :=
        head?_dropTrailingWhile (by rw [hy]; simp)
      rw [hy] at hhead
      simp only [List.head?_cons] at hhead
      exact head?_dropWhile_false hhead.symm
    rw [hdw]
    have hi := dropTrailingWhile_idem isJsWhitespace (l.dropWhile isJsWhitespace)
    rw [hy] at hi
    exact hi

theorem sanitize_no_dangerous {c : Char} {cs : List Char}
    (h : c ∈ sanitizeFilenameL cs) : isDangerousChar c = false := by
  unfold sanitizeFilenameL trimChars at h
  have h₁ := mem_dropTrailingWhile h
  have h₂ := List.dropWhile_sublist
      (l := (replaceDotDot (replaceDangerous cs)).dropWhile (fun c => c == '.'))
      isJsWhitespace |>.mem h₁
  have h₃ := List.dropWhile_sublist (l := replaceDotDot (replaceDangerous cs))
      (fun c => c == '.') |>.mem h₂
  rcases mem_replaceDotDot h₃ with h₄ | h₄
  · subst h₄; decide
  · exact isDangerousChar_replaceDangerous h₄

theorem sanitize_no_dotdot (cs : List Char) :
    hasDotDot (sanitizeFilenameL cs) = false := by
  unfold sanitizeFilenameL trimChars
  exact hasDotDot_dropTrailingWhile (hasDotDot_dropWhile
    (hasDotDot_dropWhile (hasDotDot_replaceDotDot (replaceDangerous cs))))

theorem sanitize_idem_of_head {cs : List Char}
    (h : (sanitizeFilenameL cs).head? ≠ some '.') :
    sanitizeFilenameL (sanitizeFilenameL cs) = sanitizeFilenameL cs := by
  have hdang : replaceDangerous (sanitizeFilenameL cs) = sanitizeFilenameL cs :=
    replaceDangerous_eq_self fun c hc => sanitize_no_dangerous hc
  have hdd : replaceDotDot (sanitizeFilenameL cs) = sanitizeFilenameL cs :=
    replaceDotDot_eq_self (sanitize_no_dotdot cs)
  have hdots : (sanitizeFilenameL cs).dropWhile (fun c => c == '.')
      = sanitizeFilenameL cs := by
    apply dropWhile_eq_self_of_head?
    intro c hc
    simp only [beq_eq_false_iff_ne, ne_eq]
    rintro rfl
    exact h hc
  show trimChars (((replaceDotDot (replaceDangerous
      (sanitizeFilenameL cs)))).dropWhile (fun c => c == '.'))
      = sanitizeFilenameL cs
  rw [hdang, hdd, hdots]
  show trimChars (sanitizeFilenameL cs) = sanitizeFilenameL cs
  unfold sanitizeFilenameL
  exact trimChars_idem _

/-! ## Lemmas about key segmentation -/

theorem splitSlash_ne_nil (l : List Char) : splitSlash l ≠ [] := by
  cases l with
  | nil => simp [splitSlash]
  | cons c rest =>
    rw [splitSlash]
    rcases splitSlash rest with _ | ⟨h, t⟩
    · simp
    · by_cases hc : (c == '/') = true <;> simp [hc]

theorem splitSlash_no_slash {l : List Char} (h : '/' ∉ l) : splitSlash l = [l] := by
  induction l with
  | nil => rfl
  | cons c rest ih =>
    have hc : (c == '/') = false := by
      simp only [beq_eq_false_iff_ne, ne_eq]
      intro hcc
      exact h (by simp [hcc])
    rw [splitSlash, ih (fun hm => h (List.mem_cons_of_mem c hm)), hc]
    simp

theorem splitSlash_append {l m : List Char} (h : '/' ∉ l) :
    splitSlash (l ++ '/' :: m) = l :: splitSlash m := by
  induction l with
  | nil =>
    rw [List.nil_append, splitSlash]
    rcases hs : splitSlash m with _ | ⟨x, xs⟩
    · exact absurd hs (splitSlash_ne_nil m)
    · simp
  | cons c rest ih =>
    have hc : (c == '/') = false := by
      simp only [beq_eq_false_iff_ne, ne_eq]
      intro hcc
      exact h (by simp [hcc])
    rw [List.cons_append, splitSlash,
      ih (fun hm => h (List.mem_cons_of_mem c hm)), hc]
    simp

theorem mem_sliceL {c : Char} {cs : List Char} {a b : Nat}
    (h : c ∈ sliceL cs a b) : c ∈ cs :=
  List.drop_subset a cs (List.take_subset _ _ h)

theorem slash_not_mem_sanitize (cs : List Char) : '/' ∉ sanitizeFilenameL cs := by
  intro hmem
  have hd := sanitize_no_dangerous hmem
  simp [isDangerousChar] at hd

/-! ## Lemmas about the catalog updates and the complete handler -/

theorem setSessionAborted_status (cat : Catalog) (uploadId : String) :
    ∀ s' ∈ (setSessionAborted cat uploadId).sessions, s'.id = uploadId →
      s'.status = .ABORTED := by
  intro s' hmem hid
  rcases List.mem_map.mp hmem with ⟨x, hx, rfl⟩
  by_cases hxid : (x.id == uploadId) = true
  · simp [hxid]
  · simp only [hxid, if_false] at hid ⊢
    exact absurd (beq_iff_eq.mpr hid) (by simpa using hxid)

theorem setSessionComplete_fields (cat : Catalog) (uploadId : String) (now : Nat) :
    ∀ s' ∈ (setSessionComplete cat uploadId now).sessions, s'.id = uploadId →
      s'.status = .COMPLETE ∧ s'.completedAt = some now := by
  intro s' hmem hid
  rcases List.mem_map.mp hmem with ⟨x, hx, rfl⟩
  by_cases hxid : (x.id == uploadId) = true
  · simp [hxid]
  · simp only [hxid, if_false] at hid ⊢
    exact absurd (beq_iff_eq.mpr hid) (by simpa using hxid)

theorem completeUpload_dedup_eq (hash : List Nat → String)
    (store : String → Option (List Nat))
    (ipfsPin : Option (List Nat → Option String)) (freshId : String) (now : Nat)
    (cat : Catalog) (uploadId : String) (s : UploadSession) (bk : String)
    (bytes : List Nat) (a : Artifact)
    (hs : findSession cat uploadId = some s)
    (hexp : ¬ s.expiresAt < now)
    (hbk : s.bucketKey = some bk)
    (hst : store bk = some bytes)
    (hdecl : ∀ d, s.sha256Hex = some d → d = hash bytes)
    (ha : findArtifactByDigest cat (hash bytes) = some a) :
    completeUpload hash store ipfsPin freshId now cat uploadId
      = (setSessionComplete cat uploadId now,
         .ok { artifactId := a.id, sha256Hex := a.sha256Hex,
               sizeBytes := a.sizeBytes, mime := a.mime,
               bucketKey := a.bucketKey, cidV1 := a.cidV1,
               downloadUrl := "/v1/artifacts/" ++ a.sha256Hex } false) := by
  have hmis : (match s.sha256Hex with
      | some d => d != hash bytes
      | none => false) = false := by
    rcases hsd : s.sha256Hex with _ | d
    · rfl
    · simpa using hdecl d hsd
  unfold completeUpload
  simp only [hs, hbk, hst, if_neg hexp, hmis, Bool.false_eq_true, if_false, ha]

/-! ## The claims -/

/-- Claim C1, counterexample: the claim says a second complete call for the
same uploadId leaves the session's completedAt unchanged, but the code's
dedup branch unconditionally rewrites completedAt with the current time.
Session u1 completed at time 10; a second complete call at time 20 returns
the same artifact A1 and creates nothing, yet overwrites completedAt with
20. -/
theorem second_complete_rewrites_completedAt_cx :
    (completeUpload hashC1 storeC1 none "F1" 20 catC1 "u1").2
      = .ok { artifactId := "A1", sha256Hex := "d1", sizeBytes := 2,
              mime := "application/pdf", bucketKey := "k1", cidV1 := none,
              downloadUrl := "/v1/artifacts/d1" } false
    ∧ (completeUpload hashC1 storeC1 none "F1" 20 catC1 "u1").1.artifacts
        = catC1.artifacts
    ∧ (completeUpload hashC1 storeC1 none "F1" 20 catC1 "u1").1.sessions.map
        (fun s => s.completedAt) = [some 20]
    ∧ sessionC1.status = .COMPLETE
    ∧ sessionC1.completedAt = some 10
    ∧ (some 20 : Option Nat) ≠ some 10 := by decide

/-- Claim C1, amended: a second complete call on a session that already
completed (status COMPLETE, completedAt t₀) and whose digest has an artifact
in the catalog returns the same artifactId and creates no second artifact —
but it re-runs the dedup completion and overwrites the session's completedAt
(and rewrites status COMPLETE) with the current time, so status and
completedAt are not frozen. -/
theorem second_complete_same_artifact_completedAt_overwritten
    (hash : List Nat → String) (store : String → Option (List Nat))
    (ipfsPin : Option (List Nat → Option String)) (freshId : String)
    (now t₀ : Nat) (cat : Catalog) (uploadId : String) (s : UploadSession)
    (bk : String) (bytes : List Nat) (a : Artifact)
    (hs : findSession cat uploadId = some s)
    (_hstat : s.status = .COMPLETE)
    (_ht₀ : s.completedAt = some t₀)
    (hne : t₀ ≠ now)
    (hexp : ¬ s.expiresAt < now)
    (hbk : s.bucketKey = some bk)
    (hst : store bk = some bytes)
    (hdecl : ∀ d, s.sha256Hex = some d → d = hash bytes)
    (ha : findArtifactByDigest cat (hash bytes) = some a) :
    (completeUpload hash store ipfsPin freshId now cat uploadId).2
      = .ok { artifactId := a.id, sha256Hex := a.sha256Hex,
              sizeBytes := a.sizeBytes, mime := a.mime,
              bucketKey := a.bucketKey, cidV1 := a.cidV1,
              downloadUrl := "/v1/artifacts/" ++ a.sha256Hex } false
    ∧ (completeUpload hash store ipfsPin freshId now cat uploadId).1.artifacts
        = cat.artifacts
    ∧ ∀ s' ∈ (completeUpload hash store ipfsPin freshId now cat
          uploadId).1.sessions, s'.id = uploadId →
        s'.completedAt = some now ∧ s'.completedAt ≠ some t₀ := by
  rw [completeUpload_dedup_eq hash store ipfsPin freshId now cat uploadId
    s bk bytes a hs hexp hbk hst hdecl ha]
  refine ⟨rfl, rfl, ?_⟩
  intro s' hmem hid
  have hf := setSessionComplete_fields cat uploadId now s' hmem hid
  refine ⟨hf.2, ?_⟩
  rw [hf.2]
  intro hcontra
  exact hne (Option.some_inj.mp hcontra).symm

/-- Claim C1, witness: the amended theorem applied to the concrete replay
scenario of the counterexample. -/
theorem second_complete_same_artifact_completedAt_overwritten_witness :
    (findSession catC1 "u1" = some sessionC1 ∧ sessionC1.status = .COMPLETE
      ∧ sessionC1.completedAt = some 10)
    ∧ (completeUpload hashC1 storeC1 none "F1" 20 catC1 "u1").2
        = .ok { artifactId := "A1", sha256Hex := "d1", sizeBytes := 2,
                mime := "application/pdf", bucketKey := "k1", cidV1 := none,
                downloadUrl := "/v1/artifacts/d1" } false :=
  ⟨⟨by decide, by decide, by decide⟩,
    (second_complete_same_artifact_completedAt_overwritten hashC1 storeC1 none
      "F1" 20 10 catC1 "u1" sessionC1 "k1" [104, 105] artifactC1
      (by decide) (by decide) (by decide) (by decide) (by decide) (by decide)
      (by decide)
      (fun d hd => by simp [sessionC1] at hd)
      (by decide)).1⟩

/-- Claim C2: the code stores the session's staging bucketKey on the created
artifact.  When no digest was declared at init, that key was derived from a
random UUID, so the artifact's bucketKey does not equal
`sha256/<d[0:2]>/<d[2:4]>/<d>/<sanitized-filename>` for its actual digest d —
refuting the claim and matching the source bug the spec flags in §9. -/
theorem artifact_bucketKey_not_digest_derived_bug :
    ((completeUpload (fun _ => digestC2)
        (fun k => if k == initBucketKey none uuidC2 "e.txt"
                  then some [104, 105] else none)
        none "A2" 10 catC2 "u2").1.artifacts.map
          (fun a => (a.sha256Hex, a.bucketKey)))
      = [(digestC2, initBucketKey none uuidC2 "e.txt")]
    ∧ initBucketKey none uuidC2 "e.txt" = generateBucketKey uuidC2 "e.txt"
    ∧ initBucketKey none uuidC2 "e.txt" ≠ generateBucketKey digestC2 "e.txt" := by
  decide

/-- Claim C3: a complete call on a live session whose declared digest
differs from the computed digest marks the session ABORTED, rejects with
HASH_MISMATCH (HTTP 409), and creates no artifact. -/
theorem complete_hash_mismatch_aborts
    (hash : List Nat → String) (store : String → Option (List Nat))
    (ipfsPin : Option (List Nat → Option String)) (freshId : String)
    (now : Nat) (cat : Catalog) (uploadId : String) (s : UploadSession)
    (bk : String) (bytes : List Nat) (d : String)
    (hs : findSession cat uploadId = some s)
    (hexp : ¬ s.expiresAt < now)
    (hbk : s.bucketKey = some bk)
    (hst : store bk = some bytes)
    (hd : s.sha256Hex = some d)
    (hne : d ≠ hash bytes) :
    completeUpload hash store ipfsPin freshId now cat uploadId
      = (setSessionAborted cat uploadId, .reject "HASH_MISMATCH" 409)
    ∧ (setSessionAborted cat uploadId).artifacts = cat.artifacts
    ∧ ∀ s' ∈ (setSessionAborted cat uploadId).sessions, s'.id = uploadId →
        s'.status = .ABORTED := by
  have hmis : (d != hash bytes) = true := bne_iff_ne.mpr hne
  refine ⟨?_, rfl, setSessionAborted_status cat uploadId⟩
  unfold completeUpload
  simp only [hs, hbk, hst, hd, if_neg hexp, hmis, if_true]

/-- Claim C3, witness: session u3 declared digest aa but the stored bytes
hash to bb. -/
theorem complete_hash_mismatch_aborts_witness :
    (findSession catW3 "u3" = some sessionW3
      ∧ sessionW3.sha256Hex = some "aa" ∧ ("aa" : String) ≠ "bb")
    ∧ completeUpload (fun _ => "bb")
        (fun k => if k == "k3" then some [1] else none) none "F3" 10 catW3 "u3"
      = (setSessionAborted catW3 "u3", .reject "HASH_MISMATCH" 409) :=
  ⟨⟨by decide, by decide, by decide⟩,
    (complete_hash_mismatch_aborts (fun _ => "bb")
      (fun k => if k == "k3" then some [1] else none) none "F3" 10 catW3 "u3"
      sessionW3 "k3" [1] "aa"
      (by decide) (by decide) (by decide) (by decide) (by decide)
      (by decide)).1⟩

/-- Claim C4: on a dedup hit the complete handler creates no new artifact,
marks the session COMPLETE with completedAt set to the current time, never
reaches the pin step (the response's pinAttempted flag is false), and
replies with the existing artifact's descriptor: its id, digest, size, mime,
bucketKey and cidV1. -/
theorem complete_dedup_hit_no_create_no_pin
    (hash : List Nat → String) (store : String → Option (List Nat))
    (ipfsPin : Option (List Nat → Option String)) (freshId : String)
    (now : Nat) (cat : Catalog) (uploadId : String) (s : UploadSession)
    (bk : String) (bytes : List Nat) (a : Artifact)
    (hs : findSession cat uploadId = some s)
    (hexp : ¬ s.expiresAt < now)
    (hbk : s.bucketKey = some bk)
    (hst : store bk = some bytes)
    (hdecl : ∀ d, s.sha256Hex = some d → d = hash bytes)
    (ha : findArtifactByDigest cat (hash bytes) = some a) :
    completeUpload hash store ipfsPin freshId now cat uploadId
      = (setSessionComplete cat uploadId now,
         .ok { artifactId := a.id, sha256Hex := a.sha256Hex,
               sizeBytes := a.sizeBytes, mime := a.mime,
               bucketKey := a.bucketKey, cidV1 := a.cidV1,
               downloadUrl := "/v1/artifacts/" ++ a.sha256Hex } false)
    ∧ (setSessionComplete cat uploadId now).artifacts = cat.artifacts
    ∧ ∀ s' ∈ (setSessionComplete cat uploadId now).sessions, s'.id = uploadId →
        s'.status = .COMPLETE ∧ s'.completedAt = some now :=
  ⟨completeUpload_dedup_eq hash store ipfsPin freshId now cat uploadId s bk
      bytes a hs hexp hbk hst hdecl ha,
   rfl, setSessionComplete_fields cat uploadId now⟩

/-- Claim C4, witness: session u4's bytes hash to d4, which artifact A4
already owns; an IPFS driver is configured, yet no pin is attempted. -/
theorem complete_dedup_hit_no_create_no_pin_witness :
    (findSession catW4 "u4" = some sessionW4
      ∧ findArtifactByDigest catW4 "d4" = some artifactW4)
    ∧ completeUpload (fun _ => "d4")
        (fun k => if k == "k4" then some [7, 8, 9] else none)
        (some (fun _ => some "newcid")) "F4" 20 catW4 "u4"
      = (setSessionComplete catW4 "u4" 20,
         .ok { artifactId := "A4", sha256Hex := "d4", sizeBytes := 3,
               mime := "image/png", bucketKey := "k0", cidV1 := some "cid4",
               downloadUrl := "/v1/artifacts/d4" } false) :=
  ⟨⟨by decide, by decide⟩,
    (complete_dedup_hit_no_create_no_pin (fun _ => "d4")
      (fun k => if k == "k4" then some [7, 8, 9] else none)
      (some (fun _ => some "newcid")) "F4" 20 catW4 "u4" sessionW4 "k4"
      [7, 8, 9] artifactW4
      (by decide) (by decide) (by decide) (by decide)
      (fun d hd => by simp [sessionW4] at hd)
      (by decide)).1⟩

/-- Claim C5, counterexample: the claim says an expired complete call sets
the session's status to EXPIRED; the code only throws — session u5 is past
its expiry, the call is rejected with HTTP 410, but the stored status stays
PENDING, never EXPIRED. -/
theorem complete_expired_status_not_written_cx :
    completeUpload (fun _ => "d") (fun _ => some []) none "F5" 20 catC5 "u5"
      = (catC5, .reject "UPLOAD_SESSION_EXPIRED" 410)
    ∧ (completeUpload (fun _ => "d") (fun _ => some []) none "F5" 20 catC5
        "u5").1.sessions.map (fun s => s.status) = [.PENDING]
    ∧ SessionStatus.PENDING ≠ SessionStatus.EXPIRED := by decide

/-- Claim C5, amended: a complete call on a session whose expiresAt lies in
the past is rejected with code UPLOAD_SESSION_EXPIRED (HTTP 410) and the
catalog is left untouched — so the session never transitions to COMPLETE,
but its status is also not set to EXPIRED. -/
theorem complete_expired_rejects_catalog_unchanged
    (hash : List Nat → String) (store : String → Option (List Nat))
    (ipfsPin : Option (List Nat → Option String)) (freshId : String)
    (now : Nat) (cat : Catalog) (uploadId : String) (s : UploadSession)
    (hs : findSession cat uploadId = some s)
    (hexp : s.expiresAt < now) :
    completeUpload hash store ipfsPin freshId now cat uploadId
      = (cat, .reject "UPLOAD_SESSION_EXPIRED" 410) := by
  unfold completeUpload
  simp only [hs, if_pos hexp]

/-- Claim C5, witness: the amended theorem at the concrete expired session
u5. -/
theorem complete_expired_rejects_catalog_unchanged_witness :
    (findSession catC5 "u5" = some sessionC5 ∧ sessionC5.expiresAt < 20)
    ∧ completeUpload (fun _ => "d") (fun _ => some []) none "F5" 20 catC5 "u5"
      = (catC5, .reject "UPLOAD_SESSION_EXPIRED" 410) :=
  ⟨⟨by decide, by decide⟩,
    complete_expired_rejects_catalog_unchanged (fun _ => "d") (fun _ => some [])
      none "F5" 20 catC5 "u5" sessionC5 (by decide) (by decide)⟩

/-- Claim C6: the code's signature check is a short-circuiting string
equality, not a constant-time comparison — two wrong signatures of equal
length take a different number of character comparisons depending on where
the first differing byte sits — and an unknown x-app-key is rejected with a
different error message than a wrong signature, so the two causes are
distinguishable.  This matches the source bug the spec flags in §9. -/
theorem hmac_not_constant_time_distinguishable_bug :
    verifySignatureSteps (fun _ _ => "aa") "" "ba" "secret" = 1
    ∧ verifySignatureSteps (fun _ _ => "aa") "" "ab" "secret" = 2
    ∧ ("ba" : String).length = ("ab" : String).length
    ∧ authenticateRequest (fun k => if k == "registry" then some "secret" else none)
        (fun _ _ => "aa") "unknown" "aa" ""
      = .error "Invalid app key: unknown"
    ∧ authenticateRequest (fun k => if k == "registry" then some "secret" else none)
        (fun _ _ => "aa") "registry" "zz" ""
      = .error "Invalid signature"
    ∧ ("Invalid app key: unknown" : String) ≠ "Invalid signature" := by decide

/-- Claim C7, counterexample: the sanitizer is not idempotent — trimming can
expose leading dots that only a second pass strips.  On the input of a
space, a dot and the letter a, one pass yields dot-a and a second pass
yields a. -/
theorem sanitize_not_idempotent_cx :
    sanitizeFilename " .a" = ".a"
    ∧ sanitizeFilename ".a" = "a"
    ∧ sanitizeFilename (sanitizeFilename " .a") ≠ sanitizeFilename " .a" := by
  decide

/-- Claim C7, amended: the sanitizer is deterministic (a pure function of
its input), and it is idempotent on every input whose sanitized form does
not begin with a dot; only inputs where trimming exposes new leading dots
(as in the counterexample) escape idempotence. -/
theorem sanitize_deterministic_conditionally_idempotent (s t : String)
    (hdet : s = t)
    (hhead : (sanitizeFilename s).data.head? ≠ some '.') :
    sanitizeFilename s = sanitizeFilename t
    ∧ sanitizeFilename (sanitizeFilename s) = sanitizeFilename s := by
  subst hdet
  refine ⟨rfl, ?_⟩
  show (⟨sanitizeFilenameL (sanitizeFilenameL s.data)⟩ : String)
      = ⟨sanitizeFilenameL s.data⟩
  exact congrArg String.mk (sanitize_idem_of_head hhead)

/-- Claim C7, witness: the amended theorem at a plain filename. -/
theorem sanitize_deterministic_conditionally_idempotent_witness :
    ((sanitizeFilename "report.pdf").data.head? ≠ some '.')
    ∧ (sanitizeFilename "report.pdf" = sanitizeFilename "report.pdf"
       ∧ sanitizeFilename (sanitizeFilename "report.pdf")
         = sanitizeFilename "report.pdf") :=
  ⟨by decide,
    sanitize_deterministic_conditionally_idempotent "report.pdf" "report.pdf"
      rfl (by decide)⟩

/-- Claim C8, counterexample: the source allow-list has a tenth entry,
image/jpg, which the validator accepts although it is not among the nine
types the claim enumerates. -/
theorem mime_allowlist_tenth_type_cx :
    isAllowedMimeType "image/jpg" = true
    ∧ validateMimeType "image/jpg" = .ok ()
    ∧ jsToLowerCase "image/jpg" = "image/jpg"
    ∧ specClaimedNineMimeTypes.all
        (fun t => jsToLowerCase "image/jpg" != t) = true := by decide

/-- Claim C8, amended: the MIME validator accepts a string iff its
lower-cased form is one of exactly TEN types — the nine the claim lists plus
image/jpg — and rejects every other string with UNSUPPORTED_MIME_TYPE. -/
theorem mime_allowlist_is_exactly_ten (s : String) :
    (validateMimeType s = .ok () ↔
      (jsToLowerCase s = "application/pdf" ∨ jsToLowerCase s = "image/png" ∨
       jsToLowerCase s = "image/jpeg" ∨ jsToLowerCase s = "image/jpg" ∨
       jsToLowerCase s = "text/csv" ∨ jsToLowerCase s = "application/json" ∨
       jsToLowerCase s = "application/zip" ∨
       jsToLowerCase s = "application/x-zip-compressed" ∨
       jsToLowerCase s = "text/plain" ∨
       jsToLowerCase s = "application/octet-stream"))
    ∧ (validateMimeType s = .error "UNSUPPORTED_MIME_TYPE" ↔
      ¬ (jsToLowerCase s = "application/pdf" ∨ jsToLowerCase s = "image/png" ∨
       jsToLowerCase s = "image/jpeg" ∨ jsToLowerCase s = "image/jpg" ∨
       jsToLowerCase s = "text/csv" ∨ jsToLowerCase s = "application/json" ∨
       jsToLowerCase s = "application/zip" ∨
       jsToLowerCase s = "application/x-zip-compressed" ∨
       jsToLowerCase s = "text/plain" ∨
       jsToLowerCase s = "application/octet-stream")) := by
  have hmem : isAllowedMimeType s = true ↔
      (jsToLowerCase s = "application/pdf" ∨ jsToLowerCase s = "image/png" ∨
       jsToLowerCase s = "image/jpeg" ∨ jsToLowerCase s = "image/jpg" ∨
       jsToLowerCase s = "text/csv" ∨ jsToLowerCase s = "application/json" ∨
       jsToLowerCase s = "application/zip" ∨
       jsToLowerCase s = "application/x-zip-compressed" ∨
       jsToLowerCase s = "text/plain" ∨
       jsToLowerCase s = "application/octet-stream") := by
    unfold isAllowedMimeType DEFAULT_ALLOWED_MIME_TYPES
    constructor
    · intro h; simpa using h
    · intro h; simpa using h
  unfold validateMimeType
  by_cases hb : isAllowedMimeType s = true
  · rw [if_pos hb]
    refine ⟨⟨fun _ => hmem.mp hb, fun _ => rfl⟩, ?_, ?_⟩
    · intro h; exact absurd h (by simp)
    · intro h; exact absurd (hmem.mp hb) h
  · rw [if_neg hb]
    have hnd := fun h => hb (hmem.mpr h)
    refine ⟨⟨fun h => absurd h (by simp), fun h => absurd h hnd⟩,
      fun _ => hnd, fun _ => rfl⟩

/-- Claim C9: the admin rescan handler rejects with STORAGE_ERROR (HTTP 500)
and leaves the catalog untouched when the recomputed digest differs from
the stored one, and otherwise marks the artifact scanStatus CLEAN with
verifiedAt set to the current time. -/
theorem rescan_mismatch_rejects_match_marks_clean
    (hash : List Nat → String) (store : String → Option (List Nat))
    (now : Nat) (cat : Catalog) (sha : String) (a : Artifact)
    (bytes : List Nat)
    (ha : findArtifactByDigest cat sha = some a)
    (hst : store a.bucketKey = some bytes) :
    (hash bytes ≠ a.sha256Hex →
      rescanArtifact hash store now cat sha = (cat, .reject "STORAGE_ERROR" 500))
    ∧ (hash bytes = a.sha256Hex →
      (rescanArtifact hash store now cat sha).2 = .ok a.sha256Hex .CLEAN now
      ∧ ∀ b ∈ (rescanArtifact hash store now cat sha).1.artifacts, b.id = a.id →
          b.scanStatus = .CLEAN ∧ b.verifiedAt = some now) := by
  constructor
  · intro hne
    unfold rescanArtifact
    simp only [ha, hst, bne_iff_ne.mpr hne, if_true]
  · intro heq
    have hbe : (hash bytes != a.sha256Hex) = false := by simpa using heq
    constructor
    · unfold rescanArtifact
      simp only [ha, hst, hbe, Bool.false_eq_true, if_false]
    · intro b hmem hid
      unfold rescanArtifact at hmem
      simp only [ha, hst, hbe, Bool.false_eq_true, if_false] at hmem
      rcases List.mem_map.mp hmem with ⟨x, hx, rfl⟩
      by_cases hxid : (x.id == a.id) = true
      · simp [hxid]
      · simp only [hxid, if_false] at hid ⊢
        exact absurd (beq_iff_eq.mpr hid) (by simpa using hxid)

/-- Claim C9, witness: rescan of artifact A9 whose stored bytes hash to its
recorded digest d9 succeeds and marks it CLEAN at time 5. -/
theorem rescan_mismatch_rejects_match_marks_clean_witness :
    (findArtifactByDigest catW9 "d9" = some artifactW9
      ∧ ((fun _ => "d9") : List Nat → String) [3] = artifactW9.sha256Hex)
    ∧ (rescanArtifact (fun _ => "d9")
        (fun k => if k == "k9" then some [3] else none) 5 catW9 "d9").2
      = .ok "d9" .CLEAN 5 :=
  ⟨⟨by decide, by decide⟩,
    ((rescan_mismatch_rejects_match_marks_clean (fun _ => "d9")
      (fun k => if k == "k9" then some [3] else none) 5 catW9 "d9" artifactW9
      [3] (by decide) (by decide)).2 (by decide)).1⟩

/-- Claim C10: the sanitizer's output never contains any of the characters
the source's dangerous class lists and never contains two adjacent dots;
consequently a bucket key built from a digest without slashes splits into
exactly the five expected slash-separated segments, the last being the
sanitized filename, which holds no traversal sequence. -/
theorem sanitize_output_safe_bucketKey_five_segments (d fn : String)
    (hd : '/' ∉ d.data) :
    splitSlash (generateBucketKey d fn).data
      = ["sha256".data, sliceL d.data 0 2, sliceL d.data 2 4, d.data,
         sanitizeFilenameL fn.data]
    ∧ (splitSlash (generateBucketKey d fn).data).length = 5
    ∧ (∀ c ∈ sanitizeFilenameL fn.data, isDangerousChar c = false)
    ∧ hasDotDot (sanitizeFilenameL fn.data) = false := by
  have h₁ : ('/' : Char) ∉ "sha256".data := by decide
  have h₂ : ('/' : Char) ∉ sliceL d.data 0 2 := fun h => hd (mem_sliceL h)
  have h₃ : ('/' : Char) ∉ sliceL d.data 2 4 := fun h => hd (mem_sliceL h)
  have h₅ : ('/' : Char) ∉ sanitizeFilenameL fn.data := slash_not_mem_sanitize _
  have hsplit : splitSlash (generateBucketKey d fn).data
      = ["sha256".data, sliceL d.data 0 2, sliceL d.data 2 4, d.data,
         sanitizeFilenameL fn.data] := by
    show splitSlash (bucketKeyL d.data fn.data) = _
    unfold bucketKeyL
    rw [splitSlash_append h₁, splitSlash_append h₂, splitSlash_append h₃,
      splitSlash_append hd, splitSlash_no_slash h₅]
  exact ⟨hsplit, by rw [hsplit]; rfl,
    fun c hc => sanitize_no_dangerous hc, sanitize_no_dotdot _⟩

/-- Claim C10, witness: the theorem at a concrete digest and filename. -/
theorem sanitize_output_safe_bucketKey_five_segments_witness :
    ('/' ∉ ("ab12" : String).data)
    ∧ splitSlash (generateBucketKey "ab12" "x.txt").data
        = ["sha256".data, sliceL "ab12".data 0 2, sliceL "ab12".data 2 4,
           "ab12".data, sanitizeFilenameL "x.txt".data] :=
  ⟨by decide,
    (sanitize_output_safe_bucketKey_five_segments "ab12" "x.txt" (by decide)).1⟩

end EvidenceLocker
